import Mathlib

/-!
Shallow embedding of the analysis engine of the React-Native performance
panel (`src/my-panel.tsx`), together with theorems settling the frozen
claims about it.

JavaScript numbers are modelled as exact rationals (`ℚ`); `Math.round`
is Mathlib's `round` (both are `⌊x + 1/2⌋`), `Math.floor` is `Int.floor`.
JS `Map` insertion-order semantics are modelled by association lists that
append new keys and update existing keys in place.  The stable
`Array.prototype.sort` is modelled by `List.mergeSort`, which is stable.
-/

/-- One contributing-component descriptor (`{ displayName?: string }`). -/
structure Updater where
  displayName : Option String
  deriving Repr, DecidableEq

/-- One React render commit (`Commit` in `my-panel.tsx`). -/
structure Commit where
  timestamp : Option ℚ
  duration : ℚ
  effectDuration : Option ℚ
  passiveEffectDuration : Option ℚ
  priority : Option String
  updaters : List Updater
  deriving Repr, DecidableEq

/-- The `commitData` field of a root: in the TypeScript source this may hold
any JSON value; `parseCommits` keeps it only when `Array.isArray` succeeds.
`nonSeqV` stands for any non-array value. -/
inductive CommitDataVal where
  | seqV (cs : List Commit)
  | nonSeqV
  deriving Repr, DecidableEq

/-- One entry of `dataForRoots`. -/
structure RootData where
  commitData : Option CommitDataVal
  displayName : Option String
  deriving Repr, DecidableEq

/-- The ingested profiler-export document (`ProfilerJSON`). -/
structure ProfilerJSON where
  dataForRoots : Option (List RootData)
  profilingStartTime : Option ℚ
  profilingEndTime : Option ℚ
  version : Option ℚ
  deriving Repr, DecidableEq

/-- `parseCommits` from `my-panel.tsx`:
`roots = json?.dataForRoots ?? []`, `first = roots[0]`,
`commits = first?.commitData ?? []`,
`return Array.isArray(commits) ? commits : []`. -/
def parseCommits (json : ProfilerJSON) : List Commit :=
  let roots := json.dataForRoots.getD []
  match roots.head? with
  | none => []
  | some first =>
    match first.commitData with
    | none => []
    | some (CommitDataVal.seqV cs) => cs
    | some CommitDataVal.nonSeqV => []

/-- Claim C7: the extractor never fails; absent `dataForRoots`, an empty
root list, absent `commitData` and non-array `commitData` all resolve to
the empty commit sequence, and only the first root is ever read. -/
theorem parseCommits_total_first_root_only
    (st et v : Option ℚ) :
    (∀ rest : List RootData,
        parseCommits ⟨none, st, et, v⟩ = [] ∧
        parseCommits ⟨some [], st, et, v⟩ = [] ∧
        (∀ dn : Option String,
          parseCommits ⟨some (⟨none, dn⟩ :: rest), st, et, v⟩ = [] ∧
          parseCommits ⟨some (⟨some CommitDataVal.nonSeqV, dn⟩ :: rest), st, et, v⟩ = [] ∧
          ∀ cs : List Commit,
            parseCommits ⟨some (⟨some (CommitDataVal.seqV cs), dn⟩ :: rest), st, et, v⟩ = cs)) ∧
    (∀ (r : RootData) (rest : List RootData),
        parseCommits ⟨some (r :: rest), st, et, v⟩ =
        parseCommits ⟨some [r], st, et, v⟩) := by
  refine ⟨fun rest => ⟨rfl, rfl, fun dn => ⟨rfl, rfl, fun cs => rfl⟩⟩, fun r rest => ?_⟩
  simp only [parseCommits, Option.getD_some, List.head?]

/-! ### Live session tracker (fps-tick handler, `my-panel.tsx` lines 238-244) -/

/-- The session accumulators held in panel state:
`sessionWorstFps : number | null`, `sessionStallTotalMs : number`. -/
structure LiveSession where
  worstFps : Option ℚ
  stallTotalMs : ℚ
  deriving Repr, DecidableEq

/-- Initial accumulator state: `useState(null)`, `useState(0)`. -/
def initLiveSession : LiveSession := ⟨none, 0⟩

/-- The `fps-tick` handler:
`setSessionWorstFps(prev => prev == null ? d.fps : Math.min(prev, d.fps))`;
`setSessionStallTotalMs(prev => prev + (d.jsStallsMs || 0))`.
On rationals `x || 0` is the identity (it maps only the falsy values
`0`/`NaN` to `0`), so the second update adds the raw sample value. -/
def onSample (s : LiveSession) (fps stallMs : ℚ) : LiveSession :=
  ⟨some (match s.worstFps with
         | none => fps
         | some prev => min prev fps),
   s.stallTotalMs + stallMs⟩

/-- Folding a whole sample stream `(fps, stallMs)` through the handler. -/
def foldSamples (init : LiveSession) (samples : List (ℚ × ℚ)) : LiveSession :=
  samples.foldl (fun s p => onSample s p.1 p.2) init

/-- Running minimum of a list, `none` on the empty list. -/
def minOfList : List ℚ → Option ℚ
  | [] => none
  | x :: xs => some (xs.foldl min x)

/-- Claim C5 as frozen is false: the handler adds the raw `jsStallsMs`
sample (`prev + (d.jsStallsMs || 0)`), not `max(0, stallMs)`.  A single
sample with negative stall time separates the two. -/
theorem onSample_neg_stall_counterexample :
    (foldSamples initLiveSession [((60 : ℚ), (-5 : ℚ))]).stallTotalMs ≠
      (([((60 : ℚ), (-5 : ℚ))].map (fun p => max 0 p.2)).sum) := by
  simp only [foldSamples, onSample, initLiveSession, List.foldl_cons, List.foldl_nil,
    List.map_cons, List.map_nil, List.sum_cons, List.sum_nil]
  norm_num

/-- Claim C5, amended: `worstFps` is the minimum of all observed fps
values (`none` until the first sample) and `stallTotalMs` is the sum of
the raw `stallMs` sample values; the spec's example stream
`fps=[60,45,70]`, `stall=[10,300,5]` yields `worstFps=45`,
`stallTotalMs=315`. -/
theorem foldSamples_worstFps_min_stall_sum :
    (∀ samples : List (ℚ × ℚ),
      (foldSamples initLiveSession samples).worstFps =
          minOfList (samples.map (·.1)) ∧
      (foldSamples initLiveSession samples).stallTotalMs =
          (samples.map (·.2)).sum) ∧
    (foldSamples initLiveSession [(60, 10), (45, 300), (70, 5)]).worstFps = some 45 ∧
    (foldSamples initLiveSession [(60, 10), (45, 300), (70, 5)]).stallTotalMs = 315 := by
  have key : ∀ (samples : List (ℚ × ℚ)) (w : ℚ) (t : ℚ),
      (foldSamples ⟨some w, t⟩ samples).worstFps =
          some ((samples.map (·.1)).foldl min w) ∧
      (foldSamples ⟨some w, t⟩ samples).stallTotalMs =
          t + (samples.map (·.2)).sum := by
    intro samples
    induction samples with
    | nil => intro w t; simp [foldSamples]
    | cons p rest ih =>
        intro w t
        have h := ih (min w p.1) (t + p.2)
        simp only [foldSamples, List.foldl_cons, onSample] at h ⊢
        simp only [List.map_cons, List.foldl_cons, List.sum_cons]
        exact ⟨h.1, by rw [h.2]; ring⟩
  constructor
  · intro samples
    cases samples with
    | nil => simp [foldSamples, minOfList, initLiveSession]
    | cons p rest =>
        have h := key rest p.1 (0 + p.2)
        simp only [foldSamples, List.foldl_cons, onSample, initLiveSession] at h ⊢
        refine ⟨h.1.trans ?_, h.2.trans ?_⟩
        · simp [minOfList]
        · simp only [List.map_cons, List.sum_cons]; ring
  · constructor
    · simp only [foldSamples, onSample, initLiveSession, List.foldl_cons, List.foldl_nil]
      norm_num
    · simp only [foldSamples, onSample, initLiveSession, List.foldl_cons, List.foldl_nil]
      norm_num

/-! ### Panel state and the Clear (reset) handler (`my-panel.tsx` lines 390-416) -/

/-- The slice of panel state touched by the Clear button and the capture
toggle. -/
structure PanelState where
  profile : Option ProfilerJSON
  fps : Option ℚ
  stallsMs : Option ℚ
  isCapturing : Bool
  hermesStatus : Option String
  sessionWorstFps : Option ℚ
  sessionStallTotalMs : ℚ
  deriving Repr, DecidableEq

/-- The Clear button handler: `setProfile(null)`, `setFps(null)`,
`setStallsMs(null)`, `setIsCapturing(false)`, `setHermesStatus(null)`.
It does not touch `sessionWorstFps` / `sessionStallTotalMs`. -/
def clearState (s : PanelState) : PanelState :=
  ⟨none, none, none, false, none, s.sessionWorstFps, s.sessionStallTotalMs⟩

/-- The state change of `toggleCapture` (`my-panel.tsx` lines 285-298):
flips `isCapturing`; when starting it also resets the session
accumulators (`setSessionWorstFps(null)`, `setSessionStallTotalMs(0)`). -/
def toggleCaptureState (s : PanelState) : PanelState :=
  if !s.isCapturing then
    ⟨s.profile, s.fps, s.stallsMs, true, s.hermesStatus, none, 0⟩
  else
    ⟨s.profile, s.fps, s.stallsMs, false, s.hermesStatus, s.sessionWorstFps,
      s.sessionStallTotalMs⟩

/-- Claim C6 as frozen is false: handling the reset control does not
clear the session accumulators; a state with `sessionWorstFps = 45`
keeps it after Clear. -/
theorem clearState_keeps_session_counterexample :
    (clearState ⟨none, some 30, some 12, true, none, some 45, 315⟩).sessionWorstFps ≠
      none ∧
    (clearState ⟨none, some 30, some 12, true, none, some 45, 315⟩).sessionStallTotalMs ≠
      0 := by
  constructor
  · simp [clearState]
  · simp only [clearState]
    norm_num

/-- Claim C6, amended: the reset control clears the profile/commit
sequence, the live readouts, the capture flag and the hermes status to
their initial no-data values, but leaves the session accumulators
(`worstFps`, `stallTotalMs`) unchanged; those are cleared when a capture
session starts. -/
theorem clearState_clears_all_but_session :
    ∀ s : PanelState,
      (clearState s).profile = none ∧
      (clearState s).fps = none ∧
      (clearState s).stallsMs = none ∧
      (clearState s).isCapturing = false ∧
      (clearState s).hermesStatus = none ∧
      (clearState s).sessionWorstFps = s.sessionWorstFps ∧
      (clearState s).sessionStallTotalMs = s.sessionStallTotalMs ∧
      ((toggleCaptureState s).isCapturing = true →
        (toggleCaptureState s).sessionWorstFps = none ∧
        (toggleCaptureState s).sessionStallTotalMs = 0) := by
  intro s
  refine ⟨rfl, rfl, rfl, rfl, rfl, rfl, rfl, ?_⟩
  by_cases h : s.isCapturing <;> simp [toggleCaptureState, h]

/-! ### Aggregation engine (`stats` memo, `my-panel.tsx` lines 108-168) -/

/-- `u.displayName || "(anonymous)"`: the falsy values (absent name,
empty string) map to the sentinel. -/
def updaterName (u : Updater) : String :=
  match u.displayName with
  | none => "(anonymous)"
  | some s => if s = "" then "(anonymous)" else s

/-- `Map.set(name, (Map.get(name) || 0) + 1)` on an insertion-ordered
association list: an existing key is updated in place, a new key is
appended. -/
def bumpCount (m : List (String × ℕ)) (k : String) : List (String × ℕ) :=
  if m.any (fun p => p.1 == k) then
    m.map (fun p => if p.1 == k then (p.1, p.2 + 1) else p)
  else
    m ++ [(k, 1)]

/-- `Map.set(name, (Map.get(name) || 0) + d)` for the duration-weighted
map, same insertion-order policy. -/
def bumpWeight (m : List (String × ℚ)) (k : String) (d : ℚ) : List (String × ℚ) :=
  if m.any (fun p => p.1 == k) then
    m.map (fun p => if p.1 == k then (p.1, p.2 + d) else p)
  else
    m ++ [(k, d)]

/-- The `updaterCounts` map after the single pass over all commits. -/
def updaterCounts (commits : List Commit) : List (String × ℕ) :=
  commits.foldl (fun m c => c.updaters.foldl (fun m u => bumpCount m (updaterName u)) m) []

/-- The `updaterWeighted` map after the single pass over all commits. -/
def updaterWeighted (commits : List Commit) : List (String × ℚ) :=
  commits.foldl
    (fun m c => c.updaters.foldl (fun m u => bumpWeight m (updaterName u) c.duration) m) []

/-- The `worst` accumulator:
`if (!worst || c.duration > worst.duration) worst = c`. -/
def worstCommit (commits : List Commit) : Option Commit :=
  commits.foldl
    (fun w c =>
      match w with
      | none => some c
      | some w0 => if w0.duration < c.duration then some c else some w0)
    none

/-- Placeholder commit backing the non-null assertion `worst!`; it is
never selected when the commit list is non-empty. -/
def defaultCommit : Commit := ⟨none, 0, none, none, none, []⟩

/-- The derived statistics record returned by the `stats` memo. -/
structure AggregateStats where
  total : ℕ
  janky : ℕ
  jankRate : ℤ
  worst : Commit
  topUpdaters : List (String × ℕ)
  avg : ℚ
  median : ℚ
  p95 : ℚ
  culpritsByDuration : List (String × ℚ)
  effectShare : ℤ
  passiveShare : ℤ
  maxPassive : ℚ
  perMinute : Option ℤ
  deriving Repr, DecidableEq

/-- The body of the `stats` memo for a non-empty commit list, translated
accumulator by accumulator.  The single JS pass is split into one
`countP`/`foldl` per accumulator; `Math.round` is `round`,
`Math.floor` is `Int.floor`, and the stable `Array.prototype.sort` is
`List.mergeSort`. -/
def statsCore (commits : List Commit) (budget : ℚ)
    (profilingStartTime profilingEndTime : Option ℚ) : AggregateStats :=
  let janky := commits.countP (fun c => decide (budget < c.duration))
  let worst := (worstCommit commits).getD defaultCommit
  let durations := commits.map (fun c => c.duration)
  let effectHeavy := commits.countP (fun c => decide (budget * 0.5 < c.effectDuration.getD 0))
  let passiveHeavy :=
    commits.countP (fun c => decide (budget * 0.5 < c.passiveEffectDuration.getD 0))
  let maxPassive := commits.foldl
    (fun m c => if m < c.passiveEffectDuration.getD 0 then c.passiveEffectDuration.getD 0 else m) 0
  let topUpdaters :=
    (((updaterCounts commits).filter
        (fun p => !(p.1 == "") && !(p.1 == "(anonymous)"))).mergeSort
      (fun a b => decide (b.2 ≤ a.2))).take 8
  let culpritsByDuration :=
    (((updaterWeighted commits).filter
        (fun p => !(p.1 == "") && !(p.1 == "(anonymous)"))).mergeSort
      (fun a b => decide (b.2 ≤ a.2))).take 8
  let total := commits.length
  let jankRate := round ((janky : ℚ) / (total : ℚ) * 100)
  let sorted := durations.mergeSort (fun a b => decide (a ≤ b))
  let n := sorted.length
  let median :=
    if n % 2 = 1 then sorted.getD ((n - 1) / 2) 0
    else (sorted.getD (n / 2 - 1) 0 + sorted.getD (n / 2) 0) / 2
  let p95 := sorted.getD (Int.toNat ⌊(0.95 : ℚ) * ((n : ℚ) - 1)⌋) 0
  let avg := sorted.sum / (max 1 n : ℕ)
  let windowMs := profilingEndTime.getD 0 - profilingStartTime.getD 0
  let perMinute :=
    if 0 < windowMs then some (round ((total : ℚ) / windowMs * 60000)) else none
  ⟨total, janky, jankRate, worst, topUpdaters, avg, median, p95, culpritsByDuration,
    round ((effectHeavy : ℚ) / (total : ℚ) * 100),
    round ((passiveHeavy : ℚ) / (total : ℚ) * 100),
    maxPassive, perMinute⟩

/-- The `stats` memo: `if (!commits.length) return null` and otherwise
the aggregated record. -/
def stats (commits : List Commit) (budget : ℚ)
    (profilingStartTime profilingEndTime : Option ℚ) : Option AggregateStats :=
  if commits.isEmpty then none
  else some (statsCore commits budget profilingStartTime profilingEndTime)

/-! ### Jank table builder (`jankyCommits` memo, `my-panel.tsx` lines 170-176) -/

/-- `{...c, idx: i}`: a commit annotated with its zero-based position in
the original sequence. -/
structure IndexedCommit where
  idx : ℕ
  commit : Commit
  deriving Repr, DecidableEq

/-- `commits.map((c, i) => ({...c, idx: i})).filter(c => c.duration >
budget).sort((a, b) => b.duration - a.duration).slice(0, 20)`.  The JS
sort comparator orders `a` before `b` when `b.duration - a.duration ≤ 0`
and is stable, which `List.mergeSort` reproduces. -/
def jankyCommits (commits : List Commit) (budget : ℚ) : List IndexedCommit :=
  (((commits.enum.map (fun p => IndexedCommit.mk p.1 p.2)).filter
      (fun e => decide (budget < e.commit.duration))).mergeSort
    (fun a b => decide (b.commit.duration ≤ a.commit.duration))).take 20

/-! ### Shared arithmetic helpers -/

/-- Evaluate `round` on a rational pinned between explicit bounds. -/
theorem round_eq_of_bounds {q : ℚ} {z : ℤ} (h1 : (z : ℚ) ≤ q + 1 / 2)
    (h2 : q + 1 / 2 < z + 1) : round q = z := by
  rw [round_eq]
  exact Int.floor_eq_iff.mpr ⟨h1, h2⟩

/-- `Math.round` of a percentage `j/T*100` with `j ≤ T`, `0 < T` lies in
`[0, 100]`. -/
theorem round_pct_bounds (j T : ℕ) (hT : 0 < T) (hj : j ≤ T) :
    0 ≤ round ((j : ℚ) / (T : ℚ) * 100) ∧ round ((j : ℚ) / (T : ℚ) * 100) ≤ 100 := by
  have hT' : (0 : ℚ) < (T : ℚ) := by exact_mod_cast hT
  have hq0 : (0 : ℚ) ≤ (j : ℚ) / (T : ℚ) * 100 := by positivity
  have hq1 : (j : ℚ) / (T : ℚ) * 100 ≤ 100 := by
    have hdiv : (j : ℚ) / (T : ℚ) ≤ 1 := by
      rw [div_le_one hT']
      exact_mod_cast hj
    nlinarith
  constructor
  · rw [round_eq]
    exact Int.floor_nonneg.mpr (by linarith)
  · rw [round_eq]
    have hle : (j : ℚ) / (T : ℚ) * 100 + 1 / 2 ≤ 201 / 2 := by linarith
    have h100 : ⌊(201 / 2 : ℚ)⌋ = 100 := by
      apply Int.floor_eq_iff.mpr
      constructor <;> norm_num
    calc ⌊(j : ℚ) / (T : ℚ) * 100 + 1 / 2⌋ ≤ ⌊(201 / 2 : ℚ)⌋ := Int.floor_le_floor hle
      _ = 100 := h100

/-! ### Claim C3: aggregation over an empty sequence -/

/-- Claim C3: `stats` returns `none` on the empty commit sequence and a
present statistics record on every non-empty sequence; it is a total
function, so it never throws. -/
theorem stats_none_iff_empty (budget : ℚ) (st et : Option ℚ) :
    stats [] budget st et = none ∧
    ∀ commits : List Commit, commits ≠ [] →
      stats commits budget st et = some (statsCore commits budget st et) := by
  refine ⟨rfl, fun commits h => ?_⟩
  simp [stats, h]

/-- Witness for C3 at concrete inputs. -/
theorem stats_none_iff_empty_witness :
    stats [] (10 : ℚ) none none = none ∧
    stats [⟨none, (5 : ℚ), none, none, none, []⟩] (10 : ℚ) none none =
      some (statsCore [⟨none, (5 : ℚ), none, none, none, []⟩] (10 : ℚ) none none) := by
  have h := stats_none_iff_empty (10 : ℚ) none none
  exact ⟨h.1, h.2 _ (by simp)⟩

/-! ### Claim C8: janky count and jank rate bounds -/

/-- Claim C8: over every non-empty commit sequence and budget the janky
count is at most the total count and the rounded jank rate lies in
`[0, 100]`. -/
theorem statsCore_jankRate_bounds (commits : List Commit) (budget : ℚ)
    (st et : Option ℚ) (h : commits ≠ []) :
    (statsCore commits budget st et).janky ≤ (statsCore commits budget st et).total ∧
    0 ≤ (statsCore commits budget st et).jankRate ∧
    (statsCore commits budget st et).jankRate ≤ 100 := by
  have hlen : 0 < commits.length := List.length_pos.mpr h
  have hcount : commits.countP (fun c => decide (budget < c.duration)) ≤ commits.length :=
    List.countP_le_length _
  have hb := round_pct_bounds (commits.countP (fun c => decide (budget < c.duration)))
    commits.length hlen hcount
  exact ⟨by simpa [statsCore] using hcount, by simpa [statsCore] using hb.1,
    by simpa [statsCore] using hb.2⟩

/-- Witness for C8: two of three commits over budget 16.7. -/
theorem statsCore_jankRate_bounds_witness :
    (statsCore [⟨none, (20 : ℚ), none, none, none, []⟩,
                ⟨none, (5 : ℚ), none, none, none, []⟩,
                ⟨none, (30 : ℚ), none, none, none, []⟩] (167 / 10) none none).janky ≤
      (statsCore [⟨none, (20 : ℚ), none, none, none, []⟩,
                  ⟨none, (5 : ℚ), none, none, none, []⟩,
                  ⟨none, (30 : ℚ), none, none, none, []⟩] (167 / 10) none none).total ∧
    0 ≤ (statsCore [⟨none, (20 : ℚ), none, none, none, []⟩,
                    ⟨none, (5 : ℚ), none, none, none, []⟩,
                    ⟨none, (30 : ℚ), none, none, none, []⟩] (167 / 10) none none).jankRate ∧
    (statsCore [⟨none, (20 : ℚ), none, none, none, []⟩,
                ⟨none, (5 : ℚ), none, none, none, []⟩,
                ⟨none, (30 : ℚ), none, none, none, []⟩] (167 / 10) none none).jankRate ≤ 100 :=
  statsCore_jankRate_bounds _ (167 / 10) none none (by simp)

/-! ### Claim C9: commits-per-minute -/

/-- Claim C9 as frozen is false: it asserts the unrounded value
`commits / (profilingEndTime - profilingStartTime) * 60000`, but the
code applies `Math.round` (`my-panel.tsx` line 151).  One commit in a
900 ms window gives `round(200/3) = 67`, not `200/3`. -/
theorem statsCore_perMinute_unrounded_counterexample :
    ((statsCore [⟨none, (5 : ℚ), none, none, none, []⟩] (10 : ℚ)
        (some 0) (some 900)).perMinute.map (fun z => (z : ℚ))) ≠
      some (((([⟨none, (5 : ℚ), none, none, none, []⟩] : List Commit).length : ℚ)) /
        ((900 : ℚ) - 0) * 60000) := by
  have hval : ((([⟨none, (5 : ℚ), none, none, none, []⟩] : List Commit).length : ℚ)) /
      ((some (900 : ℚ)).getD 0 - (some (0 : ℚ)).getD 0) * 60000 = 200 / 3 := by
    norm_num
  have hper : (statsCore [⟨none, (5 : ℚ), none, none, none, []⟩] (10 : ℚ)
      (some 0) (some 900)).perMinute = some 67 := by
    simp only [statsCore, if_pos (by norm_num : (0 : ℚ) <
      (some (900 : ℚ)).getD 0 - (some (0 : ℚ)).getD 0)]
    rw [hval, round_eq_of_bounds (z := 67) (by norm_num) (by norm_num)]
  rw [hper]
  simp only [Option.map_some', Ne, Option.some.injEq]
  norm_num

/-- Claim C9, amended: `perMinute` is `round(total / windowMs * 60000)`
(the code applies `Math.round` to the rate) exactly
when the document window `profilingEndTime - profilingStartTime`
(missing endpoints defaulting to 0) is positive, absent when the window
is zero or negative, and it depends on the commit sequence only through
its length — in particular not on any commit timestamp. -/
theorem statsCore_perMinute_spec (commits commits' : List Commit) (budget budget' : ℚ)
    (st et : Option ℚ) (hlen : commits.length = commits'.length) :
    (statsCore commits budget st et).perMinute =
      (statsCore commits' budget' st et).perMinute ∧
    (0 < et.getD 0 - st.getD 0 →
      (statsCore commits budget st et).perMinute =
        some (round ((commits.length : ℚ) / (et.getD 0 - st.getD 0) * 60000))) ∧
    (et.getD 0 - st.getD 0 ≤ 0 →
      (statsCore commits budget st et).perMinute = none) := by
  refine ⟨?_, fun hpos => ?_, fun hnonpos => ?_⟩
  · simp [statsCore, hlen]
  · simp only [statsCore, if_pos hpos]
  · simp only [statsCore, if_neg (not_lt.mpr hnonpos)]

/-- Witness for C9: one commit in a 1000 ms window gives 60 per minute;
an empty window gives no value; the commit timestamp is irrelevant. -/
theorem statsCore_perMinute_spec_witness :
    (statsCore [⟨some 777, (5 : ℚ), none, none, none, []⟩] (10 : ℚ)
        (some 0) (some 1000)).perMinute =
      (statsCore [⟨none, (9 : ℚ), none, none, none, []⟩] (11 : ℚ)
        (some 0) (some 1000)).perMinute ∧
    (statsCore [⟨some 777, (5 : ℚ), none, none, none, []⟩] (10 : ℚ)
        (some 0) (some 1000)).perMinute = some 60 ∧
    (statsCore [⟨some 777, (5 : ℚ), none, none, none, []⟩] (10 : ℚ)
        (some 1000) (some 1000)).perMinute = none := by
  have h := statsCore_perMinute_spec [⟨some 777, (5 : ℚ), none, none, none, []⟩]
    [⟨none, (9 : ℚ), none, none, none, []⟩] (10 : ℚ) (11 : ℚ) (some 0) (some 1000) (by simp)
  have h2 := statsCore_perMinute_spec [⟨some 777, (5 : ℚ), none, none, none, []⟩]
    [⟨some 777, (5 : ℚ), none, none, none, []⟩] (10 : ℚ) (10 : ℚ) (some 1000) (some 1000) rfl
  refine ⟨h.1, ?_, ?_⟩
  · rw [h.2.1 (by norm_num)]
    have : ((([⟨some 777, (5 : ℚ), none, none, none, []⟩] : List Commit).length : ℚ)) /
        ((some (1000 : ℚ)).getD 0 - (some (0 : ℚ)).getD 0) * 60000 = 60 := by
      norm_num
    rw [this, round_eq_of_bounds (z := 60) (by norm_num) (by norm_num)]
  · exact h2.2.2 (by norm_num)

/-! ### Claim C1: median and p95 -/

/-- The ascending comparator handed to the duration sort is transitive. -/
theorem durLE_trans :
    ∀ a b c : ℚ, (fun a b : ℚ => decide (a ≤ b)) a b →
      (fun a b : ℚ => decide (a ≤ b)) b c → (fun a b : ℚ => decide (a ≤ b)) a c := by
  intro a b c
  simp only [decide_eq_true_eq]
  exact le_trans

/-- The ascending comparator handed to the duration sort is total. -/
theorem durLE_total :
    ∀ a b : ℚ, (fun a b : ℚ => decide (a ≤ b)) a b ||
      (fun a b : ℚ => decide (a ≤ b)) b a := by
  intro a b
  simp only [Bool.or_eq_true, decide_eq_true_eq]
  exact le_total a b

/-- The sorted duration list used inside `statsCore` coincides with any
ascending-sorted rearrangement of the durations. -/
theorem mergeSort_durations_eq {commits : List Commit} {l : List ℚ}
    (hperm : l.Perm (commits.map (fun c => c.duration)))
    (hsorted : l.Sorted (· ≤ ·)) :
    (commits.map (fun c => c.duration)).mergeSort (fun a b => decide (a ≤ b)) = l := by
  have hp : ((commits.map (fun c => c.duration)).mergeSort
      (fun a b => decide (a ≤ b))).Perm l :=
    ((commits.map (fun c => c.duration)).mergeSort_perm _).trans hperm.symm
  have hs : ((commits.map (fun c => c.duration)).mergeSort
      (fun a b => decide (a ≤ b))).Sorted (· ≤ ·) := by
    have := List.sorted_mergeSort durLE_trans durLE_total
      (commits.map (fun c => c.duration))
    exact this.imp (by simp)
  exact hp.eq_of_sorted (fun a b _ _ h1 h2 => le_antisymm h1 h2) hs hsorted

/-- Claim C1: for every non-empty commit sequence the aggregation's
median is the standard ascending-order median (exact middle element for
odd count, mean of the two middle elements for even count) of the
durations, and its p95 is the element at index `⌊0.95*(n-1)⌋` of the
ascending-sorted durations, stated against an arbitrary ascending-sorted
rearrangement `l` of the durations. -/
theorem statsCore_median_p95_standard (commits : List Commit) (budget : ℚ)
    (st et : Option ℚ) (l : List ℚ)
    (hne : commits ≠ [])
    (hperm : l.Perm (commits.map (fun c => c.duration)))
    (hsorted : l.Sorted (· ≤ ·)) :
    (statsCore commits budget st et).median =
      (if l.length % 2 = 1 then l.getD ((l.length - 1) / 2) 0
       else (l.getD (l.length / 2 - 1) 0 + l.getD (l.length / 2) 0) / 2) ∧
    (statsCore commits budget st et).p95 =
      l.getD (Int.toNat ⌊(0.95 : ℚ) * ((l.length : ℚ) - 1)⌋) 0 := by
  have heq := mergeSort_durations_eq hperm hsorted
  constructor
  · simp only [statsCore, heq]
  · simp only [statsCore, heq]

/-- The spec's hand-computed example: ten commits with durations 1..10. -/
def commits10 : List Commit :=
  [⟨none, 1, none, none, none, []⟩, ⟨none, 2, none, none, none, []⟩,
   ⟨none, 3, none, none, none, []⟩, ⟨none, 4, none, none, none, []⟩,
   ⟨none, 5, none, none, none, []⟩, ⟨none, 6, none, none, none, []⟩,
   ⟨none, 7, none, none, none, []⟩, ⟨none, 8, none, none, none, []⟩,
   ⟨none, 9, none, none, none, []⟩, ⟨none, 10, none, none, none, []⟩]

/-- Witness for C1: durations `[1..10]` give median `5.5` and p95 `9`. -/
theorem statsCore_median_p95_standard_witness :
    (statsCore commits10 (167 / 10) none none).median = 11 / 2 ∧
    (statsCore commits10 (167 / 10) none none).p95 = 9 := by
  have hmap : commits10.map (fun c => c.duration) =
      [1, 2, 3, 4, 5, 6, 7, 8, 9, 10] := rfl
  have h := statsCore_median_p95_standard commits10 (167 / 10) none none
    [1, 2, 3, 4, 5, 6, 7, 8, 9, 10] (by simp [commits10])
    (hmap ▸ List.Perm.refl _)
    (by norm_num [List.sorted_cons])
  have hfloor : ⌊(0.95 : ℚ) * ((([(1 : ℚ), 2, 3, 4, 5, 6, 7, 8, 9, 10].length : ℕ) : ℚ) - 1)⌋ =
      (8 : ℤ) := by
    apply Int.floor_eq_iff.mpr
    constructor <;> norm_num
  refine ⟨h.1.trans ?_, h.2.trans ?_⟩
  · norm_num [List.getD]
  · rw [hfloor]
    norm_num [List.getD]
    rfl

/-! ### Claim C2: the jank table -/

/-- The pre-sort stage of the jank table: indexed commits whose duration
strictly exceeds the budget, in original order. -/
def jankFiltered (commits : List Commit) (budget : ℚ) : List IndexedCommit :=
  (commits.enum.map (fun p => IndexedCommit.mk p.1 p.2)).filter
    (fun e => decide (budget < e.commit.duration))

/-- `jankyCommits` is the stable descending sort of the filtered stage,
truncated to 20. -/
theorem jankyCommits_eq (commits : List Commit) (budget : ℚ) :
    jankyCommits commits budget =
      ((jankFiltered commits budget).mergeSort
        (fun a b => decide (b.commit.duration ≤ a.commit.duration))).take 20 := rfl

/-- The descending-duration comparator is transitive. -/
theorem jankLE_trans :
    ∀ a b c : IndexedCommit,
      (fun a b : IndexedCommit => decide (b.commit.duration ≤ a.commit.duration)) a b →
      (fun a b : IndexedCommit => decide (b.commit.duration ≤ a.commit.duration)) b c →
      (fun a b : IndexedCommit => decide (b.commit.duration ≤ a.commit.duration)) a c := by
  intro a b c
  simp only [decide_eq_true_eq]
  intro h1 h2
  exact le_trans h2 h1

/-- The descending-duration comparator is total. -/
theorem jankLE_total :
    ∀ a b : IndexedCommit,
      (fun a b : IndexedCommit => decide (b.commit.duration ≤ a.commit.duration)) a b ||
      (fun a b : IndexedCommit => decide (b.commit.duration ≤ a.commit.duration)) b a := by
  intro a b
  simp only [Bool.or_eq_true, decide_eq_true_eq]
  exact le_total _ _

/-- Original indices strictly increase along the filtered stage. -/
theorem jankFiltered_pairwise_idx (commits : List Commit) (budget : ℚ) :
    (jankFiltered commits budget).Pairwise (fun a b => a.idx < b.idx) := by
  apply List.Pairwise.filter
  rw [List.pairwise_map, List.pairwise_iff_getElem]
  intro i j hi hj hij
  simp only [List.getElem_enum]
  simpa using hij

/-- Each element of the filtered stage is over budget and carries the
index of that very commit in the original sequence. -/
theorem mem_jankFiltered {commits : List Commit} {budget : ℚ} {e : IndexedCommit}
    (he : e ∈ jankFiltered commits budget) :
    budget < e.commit.duration ∧ commits[e.idx]? = some e.commit := by
  rw [jankFiltered, List.mem_filter] at he
  obtain ⟨hmem, hpred⟩ := he
  refine ⟨by simpa using hpred, ?_⟩
  obtain ⟨⟨i, c⟩, hp, rfl⟩ := List.mem_map.mp hmem
  simpa using List.mem_enum_iff_getElem?.mp hp

/-- Two distinct members of a pairwise list are related one way or the
other. -/
theorem pairwise_rel_of_mem {α : Type} {R : α → α → Prop} :
    ∀ {l : List α}, l.Pairwise R → ∀ {a b : α}, a ∈ l → b ∈ l → a ≠ b →
      R a b ∨ R b a := by
  intro l
  induction l with
  | nil => intro _ a b ha; exact absurd ha (List.not_mem_nil a)
  | cons x t ih =>
      intro hp a b ha hb hne
      obtain ⟨hx, ht⟩ := List.pairwise_cons.mp hp
      rcases List.mem_cons.mp ha with rfl | ha'
      · rcases List.mem_cons.mp hb with rfl | hb'
        · exact absurd rfl hne
        · exact Or.inl (hx b hb')
      · rcases List.mem_cons.mp hb with rfl | hb'
        · exact Or.inr (hx a ha')
        · exact ih ht ha' hb' hne

/-- In a list pairwise-ordered by an asymmetric relation, two members in
relation appear in that order as a sublist. -/
theorem pair_sublist_of_pairwise {α : Type} {R : α → α → Prop}
    (hasymm : ∀ x y, R x y → ¬R y x) :
    ∀ {l : List α}, l.Pairwise R → ∀ {a b : α}, a ∈ l → b ∈ l → R a b →
      List.Sublist [a, b] l := by
  intro l
  induction l with
  | nil => intro _ a b ha; exact absurd ha (List.not_mem_nil a)
  | cons x t ih =>
      intro hp a b ha hb hR
      obtain ⟨hx, ht⟩ := List.pairwise_cons.mp hp
      rcases List.mem_cons.mp ha with rfl | ha'
      · rcases List.mem_cons.mp hb with rfl | hb'
        · exact absurd hR (hasymm _ _ hR)
        · exact List.Sublist.cons₂ a (List.singleton_sublist.mpr hb')
      · rcases List.mem_cons.mp hb with rfl | hb'
        · exact absurd (hx a ha') (hasymm _ _ hR)
        · exact (ih ht ha' hb' hR).cons x

/-- A two-element sublist pins down two positions in order. -/
theorem pair_sublist_getElem {α : Type} {x y : α} :
    ∀ {l : List α}, List.Sublist [x, y] l →
      ∃ (i j : ℕ) (hi : i < l.length) (hj : j < l.length),
        i < j ∧ l[i] = x ∧ l[j] = y := by
  intro l
  induction l with
  | nil => intro h; exact absurd h (by simp)
  | cons z t ih =>
      intro h
      cases h with
      | cons _ h' =>
          obtain ⟨i, j, hi, hj, hij, hx, hy⟩ := ih h'
          exact ⟨i + 1, j + 1, by simpa using hi, by simpa using hj, by omega,
            by simpa using hx, by simpa using hy⟩
      | cons₂ _ h' =>
          have hy' : y ∈ t := List.singleton_sublist.mp h'
          obtain ⟨j, hj, hyj⟩ := List.getElem_of_mem hy'
          exact ⟨0, j + 1, by simp, by simpa using hj, by omega, rfl, by simpa using hyj⟩

/-- Claim C2: the jank table is the 20-element truncation of the unique
reordering `L` of the over-budget commits that is descending by duration
with ties broken by ascending original index (i.e. stable); its length
is `min 20` of the filtered count, and every entry is over budget and
carries the zero-based index of that very commit in the original
unfiltered sequence. -/
theorem jankyCommits_spec (commits : List Commit) (budget : ℚ) :
    (∃ L : List IndexedCommit,
        L.Perm (jankFiltered commits budget) ∧
        L.Pairwise (fun a b => b.commit.duration < a.commit.duration ∨
          (b.commit.duration = a.commit.duration ∧ a.idx < b.idx)) ∧
        jankyCommits commits budget = L.take 20) ∧
    (jankyCommits commits budget).length = min 20 (jankFiltered commits budget).length ∧
    ∀ e ∈ jankyCommits commits budget,
      budget < e.commit.duration ∧ commits[e.idx]? = some e.commit := by
  have hidx := jankFiltered_pairwise_idx commits budget
  have hperm : ((jankFiltered commits budget).mergeSort
      (fun a b => decide (b.commit.duration ≤ a.commit.duration))).Perm
      (jankFiltered commits budget) :=
    (jankFiltered commits budget).mergeSort_perm _
  have hnodupF : (jankFiltered commits budget).Nodup :=
    hidx.imp (fun hab he => absurd (he ▸ hab) (lt_irrefl _))
  have hnodupL : ((jankFiltered commits budget).mergeSort
      (fun a b => decide (b.commit.duration ≤ a.commit.duration))).Nodup :=
    hperm.nodup_iff.mpr hnodupF
  have hsorted : ((jankFiltered commits budget).mergeSort
      (fun a b => decide (b.commit.duration ≤ a.commit.duration))).Pairwise
      (fun a b => b.commit.duration ≤ a.commit.duration) := by
    have := List.sorted_mergeSort jankLE_trans jankLE_total (jankFiltered commits budget)
    exact this.imp (by simp)
  refine ⟨⟨(jankFiltered commits budget).mergeSort
      (fun a b => decide (b.commit.duration ≤ a.commit.duration)),
      hperm, ?_, jankyCommits_eq commits budget⟩, ?_, ?_⟩
  · rw [List.pairwise_iff_getElem] at hsorted ⊢
    intro i j hi hj hij
    have hdur := hsorted i j hi hj hij
    rcases lt_or_eq_of_le hdur with hlt | heq
    · exact Or.inl hlt
    · refine Or.inr ⟨heq, ?_⟩
      by_contra hle
      push_neg at hle
      set L := (jankFiltered commits budget).mergeSort
        (fun a b => decide (b.commit.duration ≤ a.commit.duration)) with hL
      have hne : L[i] ≠ L[j] := fun he =>
        absurd ((hnodupL.getElem_inj_iff).mp he) (Nat.ne_of_lt hij)
      have hmemi : L[i] ∈ jankFiltered commits budget :=
        hperm.mem_iff.mp (List.getElem_mem hi)
      have hmemj : L[j] ∈ jankFiltered commits budget :=
        hperm.mem_iff.mp (List.getElem_mem hj)
      rcases pairwise_rel_of_mem hidx hmemi hmemj hne with h1 | h2
      · exact absurd h1 (not_lt.mpr hle)
      · have hsub : List.Sublist [L[j], L[i]] (jankFiltered commits budget) :=
          pair_sublist_of_pairwise (fun x y hxy hyx => absurd hyx (not_lt.mpr hxy.le))
            hidx hmemj hmemi h2
        have hcmp : (fun a b : IndexedCommit =>
            decide (b.commit.duration ≤ a.commit.duration)) L[j] L[i] = true := by
          simp [heq]
        have hsubL : List.Sublist [L[j], L[i]] L :=
          List.pair_sublist_mergeSort jankLE_trans jankLE_total hcmp hsub
        obtain ⟨p, q, hp, hq, hpq, hep, heq2⟩ := pair_sublist_getElem hsubL
        have hpj : p = j := (hnodupL.getElem_inj_iff).mp hep
        have hqi : q = i := (hnodupL.getElem_inj_iff).mp heq2
        omega
  · rw [jankyCommits_eq, List.length_take, List.length_mergeSort]
  · intro e he
    rw [jankyCommits_eq] at he
    have he1 := List.take_subset _ _ he
    exact mem_jankFiltered (hperm.mem_iff.mp he1)

/-! ### Suggestion engine (`Suggestions`, `my-panel.tsx` lines 737-760) -/

/-- `Number.prototype.toFixed(1)`: the nearest multiple of `1/10`, ties
toward the larger value, rendered with one decimal digit. -/
def toFixed1 (q : ℚ) : String :=
  let n := round (q * 10)
  let sign := if n < 0 then "-" else ""
  sign ++ toString (n.natAbs / 10) ++ "." ++ toString (n.natAbs % 10)

/-- The `ms` formatter: em-dash for a missing number, otherwise
`toFixed(1)` followed by a unit. -/
def ms : Option ℚ → String
  | none => "—"
  | some q => toFixed1 q ++ " ms"

/-- Plain JS number-to-string interpolation (`${metrics.worstFps}`),
rendered as an exact integer or fraction.  (Exact float formatting is
not observable by any claim; only the literal message prefix is.) -/
def numStr (q : ℚ) : String :=
  if q.den = 1 then toString q.num else toString q.num ++ "/" ++ toString q.den

/-- The optional live-session metrics handed to `Suggestions`. -/
structure LiveMetrics where
  worstFps : Option ℚ
  stallTotalMs : Option ℚ
  deriving Repr, DecidableEq

def msg1 : String :=
  "High jank rate: audit expensive renders; prefer memoization and virtualization."

def msg2 (p95 budget : ℚ) : String :=
  "P95 exceeds budget (" ++ ms (some p95) ++ " > " ++ ms (some budget) ++
    "): split work across frames and defer effects."

def msg3 : String :=
  "Large passive effects: move heavy logic out of effects or defer to Idle callbacks."

def msg4 : String :=
  "Average commit close to budget: consider UI-thread animations and reducing setState fan-out."

def msg5 : String :=
  "Anonymous updaters: name components/functions to track hotspots precisely."

def msg6 (worstFps : ℚ) : String :=
  "Low FPS observed (" ++ numStr worstFps ++
    "): move animations to UI thread and reduce JS work during interactions."

def msg7 (stallTotal : Option ℚ) : String :=
  "JS thread stalls totaled " ++ ms stallTotal ++
    ": debounce state updates and offload heavy sync work."

def msg8 (name : String) : String :=
  "Top culprit: " ++ name ++ " – memoize props, split work, and avoid unnecessary renders."

def fallbackMsg : String :=
  "Looks healthy. Keep components pure and derived, and monitor P95 over time."

/-- The eight rule pushes of `Suggestions`, in source order:
1. `stats.jankRate > 20`
2. `stats.p95 > budget`
3. `(stats.worst.passiveEffectDuration || 0) > budget * 0.5`
4. `stats.avg > budget * 0.6`
5. `stats.topUpdaters.some(([n]) => n === "(anonymous)")`
6. `metrics?.worstFps != null && metrics.worstFps < 50`
7. `(metrics?.stallTotalMs ?? 0) > 200`
8. `(stats.culpritsByDuration ?? []).length` non-zero, naming entry 0. -/
def ruleMessages (s : AggregateStats) (budget : ℚ) (metrics : Option LiveMetrics) :
    List String :=
  (if 20 < s.jankRate then [msg1] else []) ++
  (if budget < s.p95 then [msg2 s.p95 budget] else []) ++
  (if budget * 0.5 < s.worst.passiveEffectDuration.getD 0 then [msg3] else []) ++
  (if budget * 0.6 < s.avg then [msg4] else []) ++
  (if s.topUpdaters.any (fun p => p.1 == "(anonymous)") then [msg5] else []) ++
  (match metrics.bind (fun m => m.worstFps) with
   | some f => if f < 50 then [msg6 f] else []
   | none => []) ++
  (if 200 < (metrics.bind (fun m => m.stallTotalMs)).getD 0 then
    [msg7 (metrics.bind (fun m => m.stallTotalMs))]
   else []) ++
  (match s.culpritsByDuration with
   | (n, _) :: _ => [msg8 n]
   | [] => [])

/-- The `Suggestions` list: the rules in order, or the single fallback
when none fired (`if (!items.length) items.push(...)`). -/
def suggestions (s : AggregateStats) (budget : ℚ) (metrics : Option LiveMetrics) :
    List String :=
  let items := ruleMessages s budget metrics
  if items.isEmpty then [fallbackMsg] else items

/-- Specification-side rule table: predicate and message of each of the
eight rules, listed in priority order 1..8. -/
def rulesSpec (s : AggregateStats) (budget : ℚ) (metrics : Option LiveMetrics) :
    List (Bool × String) :=
  [(decide (20 < s.jankRate), msg1),
   (decide (budget < s.p95), msg2 s.p95 budget),
   (decide (budget * 0.5 < s.worst.passiveEffectDuration.getD 0), msg3),
   (decide (budget * 0.6 < s.avg), msg4),
   (s.topUpdaters.any (fun p => p.1 == "(anonymous)"), msg5),
   ((match metrics.bind (fun m => m.worstFps) with
     | some f => decide (f < 50)
     | none => false),
    (match metrics.bind (fun m => m.worstFps) with
     | some f => msg6 f
     | none => "")),
   (decide (200 < (metrics.bind (fun m => m.stallTotalMs)).getD 0),
    msg7 (metrics.bind (fun m => m.stallTotalMs))),
   (!s.culpritsByDuration.isEmpty,
    (match s.culpritsByDuration with
     | (n, _) :: _ => msg8 n
     | [] => ""))]

/-- Messages of the triggered rules, in priority order 1..8. -/
def triggeredSpec (s : AggregateStats) (budget : ℚ) (metrics : Option LiveMetrics) :
    List String :=
  ((rulesSpec s budget metrics).filter (fun p => p.1)).map (fun p => p.2)

/-! Distinctness of the fallback and rule-5 messages from every other
emitted message, needed to reason about membership in the output list. -/

theorem fb_ne_msg1 : fallbackMsg ≠ msg1 := by decide

theorem fb_ne_msg2 (p b : ℚ) : fallbackMsg ≠ msg2 p b := by
  intro h
  have h2 := congrArg (fun s => s.data.take 3) h
  simp only [fallbackMsg, msg2, String.data_append, List.cons_append,
    List.take_succ_cons, List.take_zero] at h2
  revert h2
  decide

theorem fb_ne_msg3 : fallbackMsg ≠ msg3 := by decide

theorem fb_ne_msg4 : fallbackMsg ≠ msg4 := by decide

theorem fb_ne_msg5 : fallbackMsg ≠ msg5 := by decide

theorem fb_ne_msg6 (f : ℚ) : fallbackMsg ≠ msg6 f := by
  intro h
  have h2 := congrArg (fun s => s.data.take 3) h
  simp only [fallbackMsg, msg6, String.data_append, List.cons_append,
    List.take_succ_cons, List.take_zero] at h2
  revert h2
  decide

theorem fb_ne_msg7 (o : Option ℚ) : fallbackMsg ≠ msg7 o := by
  intro h
  have h2 := congrArg (fun s => s.data.take 3) h
  simp only [fallbackMsg, msg7, String.data_append, List.cons_append,
    List.take_succ_cons, List.take_zero] at h2
  revert h2
  decide

theorem fb_ne_msg8 (n : String) : fallbackMsg ≠ msg8 n := by
  intro h
  have h2 := congrArg (fun s => s.data.take 3) h
  simp only [fallbackMsg, msg8, String.data_append, List.cons_append,
    List.take_succ_cons, List.take_zero] at h2
  revert h2
  decide

theorem msg5_ne_msg1 : msg5 ≠ msg1 := by decide

theorem msg5_ne_msg2 (p b : ℚ) : msg5 ≠ msg2 p b := by
  intro h
  have h2 := congrArg (fun s => s.data.take 3) h
  simp only [msg5, msg2, String.data_append, List.cons_append,
    List.take_succ_cons, List.take_zero] at h2
  revert h2
  decide

theorem msg5_ne_msg3 : msg5 ≠ msg3 := by decide

theorem msg5_ne_msg4 : msg5 ≠ msg4 := by decide

theorem msg5_ne_msg6 (f : ℚ) : msg5 ≠ msg6 f := by
  intro h
  have h2 := congrArg (fun s => s.data.take 3) h
  simp only [msg5, msg6, String.data_append, List.cons_append,
    List.take_succ_cons, List.take_zero] at h2
  revert h2
  decide

theorem msg5_ne_msg7 (o : Option ℚ) : msg5 ≠ msg7 o := by
  intro h
  have h2 := congrArg (fun s => s.data.take 3) h
  simp only [msg5, msg7, String.data_append, List.cons_append,
    List.take_succ_cons, List.take_zero] at h2
  revert h2
  decide

theorem msg5_ne_msg8 (n : String) : msg5 ≠ msg8 n := by
  intro h
  have h2 := congrArg (fun s => s.data.take 3) h
  simp only [msg5, msg8, String.data_append, List.cons_append,
    List.take_succ_cons, List.take_zero] at h2
  revert h2
  decide

/-- Unfolding step for filter-then-map over the rule table. -/
theorem filter_map_cons_pair (b : Bool) (x : String) (rest : List (Bool × String)) :
    (((b, x) :: rest).filter (fun p => p.1)).map (fun p => p.2) =
      (if b then [x] else []) ++ ((rest.filter (fun p => p.1)).map (fun p => p.2)) := by
  cases b <;> simp [List.filter_cons]

/-- The embedded rule pass agrees with the specification-side ordered
rule table. -/
theorem ruleMessages_eq_triggeredSpec (s : AggregateStats) (budget : ℚ)
    (metrics : Option LiveMetrics) :
    ruleMessages s budget metrics = triggeredSpec s budget metrics := by
  rcases hw : metrics.bind (fun m => m.worstFps) with _ | f <;>
    rcases hc : s.culpritsByDuration with _ | ⟨⟨n, w⟩, tl⟩ <;>
      simp only [ruleMessages, triggeredSpec, rulesSpec, hw, hc, filter_map_cons_pair,
        List.filter_nil, List.map_nil, List.append_nil, decide_eq_true_eq,
        List.isEmpty_cons, List.isEmpty_nil, Bool.not_true, Bool.not_false,
        Bool.false_eq_true, if_false, if_true, List.append_assoc, List.nil_append]

/-- The fallback message is never produced by any of the eight rules. -/
theorem fb_not_mem_ruleMessages (s : AggregateStats) (b : ℚ) (m : Option LiveMetrics) :
    fallbackMsg ∉ ruleMessages s b m := by
  intro h
  unfold ruleMessages at h
  simp only [List.mem_append] at h
  rcases h with (((((((h | h) | h) | h) | h) | h) | h) | h)
  · split at h
    · exact fb_ne_msg1 (by simpa using h)
    · simp at h
  · split at h
    · exact fb_ne_msg2 s.p95 b (by simpa using h)
    · simp at h
  · split at h
    · exact fb_ne_msg3 (by simpa using h)
    · simp at h
  · split at h
    · exact fb_ne_msg4 (by simpa using h)
    · simp at h
  · split at h
    · exact fb_ne_msg5 (by simpa using h)
    · simp at h
  · revert h
    rcases hw : m.bind (fun mm => mm.worstFps) with _ | f
    · intro h
      simp at h
    · intro h
      have h2 : f < 50 ∧ fallbackMsg = msg6 f := by simpa using h
      exact fb_ne_msg6 f h2.2
  · split at h
    · exact fb_ne_msg7 _ (by simpa using h)
    · simp at h
  · revert h
    rcases hc : s.culpritsByDuration with _ | ⟨⟨n, w⟩, tl⟩
    · intro h
      simp at h
    · intro h
      exact fb_ne_msg8 n (by simpa using h)

/-- The rule pass yields no message exactly when none of the eight rule
predicates holds. -/
theorem ruleMessages_eq_nil_iff (s : AggregateStats) (b : ℚ) (m : Option LiveMetrics) :
    ruleMessages s b m = [] ↔
      (¬(20 < s.jankRate) ∧ ¬(b < s.p95) ∧
       ¬(b * 0.5 < s.worst.passiveEffectDuration.getD 0) ∧
       ¬(b * 0.6 < s.avg) ∧
       ¬(s.topUpdaters.any (fun p => p.1 == "(anonymous)") = true) ∧
       ¬(∃ f, m.bind (fun mm => mm.worstFps) = some f ∧ f < 50) ∧
       ¬(200 < (m.bind (fun mm => mm.stallTotalMs)).getD 0) ∧
       s.culpritsByDuration = []) := by
  rcases hw : m.bind (fun mm => mm.worstFps) with _ | f <;>
    rcases hc : s.culpritsByDuration with _ | ⟨⟨n, w⟩, tl⟩ <;>
      simp [ruleMessages, hw, hc, List.append_eq_nil, ite_eq_right_iff, and_assoc]

/-- Claim C4: the suggestion output is the ordered list of triggered
rule messages (priority order 1..8), with the fallback exactly when the
list is empty; the fallback appears iff none of the eight predicates
holds, and never alongside another suggestion. -/
theorem suggestions_fallback_iff (s : AggregateStats) (b : ℚ) (m : Option LiveMetrics) :
    (suggestions s b m =
      if (triggeredSpec s b m).isEmpty then [fallbackMsg] else triggeredSpec s b m) ∧
    (suggestions s b m = [fallbackMsg] ↔
      (¬(20 < s.jankRate) ∧ ¬(b < s.p95) ∧
       ¬(b * 0.5 < s.worst.passiveEffectDuration.getD 0) ∧
       ¬(b * 0.6 < s.avg) ∧
       ¬(s.topUpdaters.any (fun p => p.1 == "(anonymous)") = true) ∧
       ¬(∃ f, m.bind (fun mm => mm.worstFps) = some f ∧ f < 50) ∧
       ¬(200 < (m.bind (fun mm => mm.stallTotalMs)).getD 0) ∧
       s.culpritsByDuration = [])) ∧
    (fallbackMsg ∈ suggestions s b m ↔ suggestions s b m = [fallbackMsg]) := by
  refine ⟨?_, ?_, ?_⟩
  · simp only [suggestions, ruleMessages_eq_triggeredSpec]
  · rw [← ruleMessages_eq_nil_iff s b m]
    constructor
    · intro h
      by_cases he : ruleMessages s b m = []
      · exact he
      · exfalso
        have : suggestions s b m = ruleMessages s b m := by
          simp [suggestions, List.isEmpty_iff, he]
        rw [this] at h
        exact fb_not_mem_ruleMessages s b m (h ▸ List.mem_singleton_self fallbackMsg)
    · intro h
      simp [suggestions, h]
  · constructor
    · intro h
      by_cases he : ruleMessages s b m = []
      · simp [suggestions, he]
      · exfalso
        have : suggestions s b m = ruleMessages s b m := by
          simp [suggestions, List.isEmpty_iff, he]
        rw [this] at h
        exact fb_not_mem_ruleMessages s b m h
    · intro h
      rw [h]
      exact List.mem_singleton_self fallbackMsg

/-- Witness for C4: a healthy statistics record (no rule fires) yields
exactly the single fallback message. -/
theorem suggestions_fallback_iff_witness :
    suggestions ⟨1, 0, 0, defaultCommit, [], 5, 5, 5, [], 0, 0, 0, none⟩
        (167 / 10) none = [fallbackMsg] :=
  (suggestions_fallback_iff ⟨1, 0, 0, defaultCommit, [], 5, 5, 5, [], 0, 0, 0, none⟩
      (167 / 10) none).2.1.mpr
    ⟨by norm_num, by norm_num [defaultCommit], by norm_num [defaultCommit],
     by norm_num, by simp, by simp, by norm_num, rfl⟩

/-! ### Claim C10: the anonymous-updaters rule is dead -/

/-- When the rule-5 predicate is false, `msg5` is not among the rule
messages. -/
theorem msg5_not_mem_ruleMessages (s : AggregateStats) (b : ℚ) (m : Option LiveMetrics)
    (hp : s.topUpdaters.any (fun p => p.1 == "(anonymous)") = false) :
    msg5 ∉ ruleMessages s b m := by
  intro h
  unfold ruleMessages at h
  simp only [List.mem_append] at h
  rcases h with (((((((h | h) | h) | h) | h) | h) | h) | h)
  · split at h
    · exact msg5_ne_msg1 (by simpa using h)
    · simp at h
  · split at h
    · exact msg5_ne_msg2 s.p95 b (by simpa using h)
    · simp at h
  · split at h
    · exact msg5_ne_msg3 (by simpa using h)
    · simp at h
  · split at h
    · exact msg5_ne_msg4 (by simpa using h)
    · simp at h
  · rw [hp] at h
    simp at h
  · revert h
    rcases hw : m.bind (fun mm => mm.worstFps) with _ | f
    · intro h
      simp at h
    · intro h
      have h2 : f < 50 ∧ msg5 = msg6 f := by simpa using h
      exact msg5_ne_msg6 f h2.2
  · split at h
    · exact msg5_ne_msg7 _ (by simpa using h)
    · simp at h
  · revert h
    rcases hc : s.culpritsByDuration with _ | ⟨⟨n, w⟩, tl⟩
    · intro h
      simp at h
    · intro h
      exact msg5_ne_msg8 n (by simpa using h)

/-- Claim C10: the top-render-count ranking filters out the
`"(anonymous)"` sentinel before truncation, so over the engine's own
aggregate output the rule-5 predicate is unsatisfiable and the
"Anonymous updaters" message is never emitted. -/
theorem suggestions_never_anonymous (commits : List Commit) (budget : ℚ)
    (st et : Option ℚ) (s : AggregateStats) (m : Option LiveMetrics)
    (h : stats commits budget st et = some s) :
    s.topUpdaters.any (fun p => p.1 == "(anonymous)") = false ∧
    msg5 ∉ suggestions s budget m := by
  have hs : s = statsCore commits budget st et := by
    by_cases he : commits.isEmpty <;> simp [stats, he] at h
    exact h.symm
  have hany : s.topUpdaters.any (fun p => p.1 == "(anonymous)") = false := by
    rw [hs]
    rw [List.any_eq_false]
    intro x hx
    have hx1 : x ∈ ((updaterCounts commits).filter
        (fun p => !(p.1 == "") && !(p.1 == "(anonymous)"))).mergeSort
        (fun a b => decide (b.2 ≤ a.2)) := by
      simpa [statsCore] using List.take_subset _ _ hx
    have hx2 := List.mem_mergeSort.mp hx1
    have hx3 := List.of_mem_filter hx2
    simp only [Bool.and_eq_true, Bool.not_eq_true'] at hx3
    simp [hx3.2]
  refine ⟨hany, ?_⟩
  intro hmem
  simp only [suggestions] at hmem
  split at hmem
  · simp only [List.mem_singleton] at hmem
    exact fb_ne_msg5 hmem.symm
  · exact msg5_not_mem_ruleMessages s budget m hany hmem

/-- Witness for C10: a commit contributed by one anonymous and one named
updater; the ranking contains only the named one and the anonymous rule
stays silent. -/
theorem suggestions_never_anonymous_witness :
    ((statsCore [⟨none, (5 : ℚ), none, none, none, [⟨none⟩, ⟨some "Foo"⟩]⟩]
        (10 : ℚ) none none).topUpdaters.any (fun p => p.1 == "(anonymous)")) = false ∧
    msg5 ∉ suggestions
      (statsCore [⟨none, (5 : ℚ), none, none, none, [⟨none⟩, ⟨some "Foo"⟩]⟩]
        (10 : ℚ) none none) (10 : ℚ) none :=
  suggestions_never_anonymous
    [⟨none, (5 : ℚ), none, none, none, [⟨none⟩, ⟨some "Foo"⟩]⟩] (10 : ℚ) none none
    (statsCore [⟨none, (5 : ℚ), none, none, none, [⟨none⟩, ⟨some "Foo"⟩]⟩] (10 : ℚ) none none)
    none (by simp [stats])

/-- The spec's jank-table example: durations 20, 5, 30. -/
def commits3 : List Commit :=
  [⟨none, 20, none, none, none, []⟩, ⟨none, 5, none, none, none, []⟩,
   ⟨none, 30, none, none, none, []⟩]

unseal List.merge List.mergeSort in
/-- Witness for C2: with budget 17 the table keeps durations 30 and 20
in that order, carrying original indices 2 and 0. -/
theorem jankyCommits_spec_witness :
    ((17 : ℚ) < (⟨none, 30, none, none, none, []⟩ : Commit).duration ∧
      commits3[(2 : ℕ)]? = some ⟨none, 30, none, none, none, []⟩) ∧
    jankyCommits commits3 17 =
      [⟨2, ⟨none, 30, none, none, none, []⟩⟩, ⟨0, ⟨none, 20, none, none, none, []⟩⟩] :=
  ⟨(jankyCommits_spec commits3 17).2.2 ⟨2, ⟨none, 30, none, none, none, []⟩⟩ (by decide),
   by decide⟩

/-- Witness for C6 (amended): a concrete cleared state keeps its session
accumulators, while starting a capture session resets them. -/
theorem clearState_clears_all_but_session_witness :
    (clearState ⟨none, some 30, some 12, false, none, some 45, 315⟩).sessionWorstFps =
      some 45 ∧
    (toggleCaptureState ⟨none, some 30, some 12, false, none, some 45, 315⟩).sessionWorstFps =
      none ∧
    (toggleCaptureState
        ⟨none, some 30, some 12, false, none, some 45, 315⟩).sessionStallTotalMs = 0 := by
  have h := clearState_clears_all_but_session ⟨none, some 30, some 12, false, none, some 45, 315⟩
  have h2 := h.2.2.2.2.2.2.2 (by decide)
  exact ⟨h.2.2.2.2.2.1, h2.1, h2.2⟩
